import Mathlib

/-!
Verification development for the bilingual static-page generator
(`generer_page.py`).  The program's functions are shallowly embedded over
`List Char` strings and an inductive model of the YAML values the script
manipulates.  Python-specific behaviours (dict `.get`, falsiness, `str.replace`
replacing every occurrence, `AttributeError` on `.get` applied to a non-dict)
are modelled explicitly; fallible code returns `Except Unit`.
-/

/-- Strings are modelled as lists of characters. -/
abbrev Str : Type := List Char

/-- Coerce a Lean string literal to the `Str` model. -/
def S (s : String) : Str := s.data

/-- The whitespace characters recognised by Python's `str.strip` / `\s`
(ASCII range; the generator's data contains no exotic Unicode spaces). -/
def pyIsSpace (c : Char) : Bool :=
  c == ' ' || c == '\t' || c == '\n' || c == '\r' || c == '\x0b' || c == '\x0c'

/-- Python `str.strip()`: remove leading and trailing whitespace. -/
def pyStrip (s : Str) : Str :=
  ((s.dropWhile pyIsSpace).reverse.dropWhile pyIsSpace).reverse

/-- Fuelled worker for `pyReplaceAll`; scans left to right, replacing each
non-overlapping occurrence of `pat` (assumed nonempty) by `rep`. -/
def replAux (pat rep : Str) : Nat → Str → Str
  | 0, s => s
  | _ + 1, [] => []
  | fuel + 1, c :: rest =>
    if pat.isPrefixOf (c :: rest) then
      rep ++ replAux pat rep fuel ((c :: rest).drop pat.length)
    else
      c :: replAux pat rep fuel rest

/-- Python `s.replace(pat, rep)`: every non-overlapping occurrence of `pat`
is replaced, scanning left to right.  For the (never exercised) empty
pattern Python inserts `rep` at every gap. -/
def pyReplaceAll (s pat rep : Str) : Str :=
  if pat.isEmpty then rep ++ s.foldr (fun c acc => c :: (rep ++ acc)) []
  else replAux pat rep (s.length + 1) s

/-- Fuelled worker for `splitOnSub`. -/
def splitAux (sep : Str) : Nat → Str → Str → List Str
  | 0, acc, s => [acc.reverse ++ s]
  | fuel + 1, acc, s =>
    if sep.isPrefixOf s && !sep.isEmpty then
      acc.reverse :: splitAux sep fuel [] (s.drop sep.length)
    else
      match s with
      | [] => [acc.reverse]
      | c :: rest => splitAux sep fuel (c :: acc) rest

/-- Python `s.split(sep)` for a nonempty separator: non-overlapping,
leftmost-first. -/
def splitOnSub (sep s : Str) : List Str :=
  splitAux sep (s.length + 1) [] s

/-! ### Deterministic matchers for the regex fragments the script uses

Each regex in the source is a concatenation of literals, maximal-munch
character classes (`\w+`, `\s+`, `\s*`, `[^']+`, `[^\]]+`, `[^)]+`) and one
non-greedy gap; for these shapes maximal munch coincides with Python's
backtracking semantics because the classes are disjoint from what follows
them. -/

/-- Prefix test that is structural in its first argument (so that it
reduces on a concrete literal even when the tail of `s` is symbolic). -/
def litPre : Str → Str → Bool
  | [], _ => true
  | a :: as, s =>
    match s with
    | [] => false
    | b :: bs => a == b && litPre as bs

/-- Match a literal; on success return the remaining input. -/
def parseLit (lit s : Str) : Option Str :=
  if litPre lit s then some (s.drop lit.length) else none

/-- `\s*`: skip whitespace (maximal). -/
def skipSpaces (s : Str) : Str := s.dropWhile pyIsSpace

/-- `\s+`: at least one whitespace character, then maximal skip. -/
def parseSpaces1 : Str → Option Str
  | [] => none
  | c :: rest => if pyIsSpace c then some (rest.dropWhile pyIsSpace) else none

/-- A `\w` word character: `[a-zA-Z0-9_]`. -/
def isWordChar (c : Char) : Bool := c.isAlphanum || c == '_'

/-- `(\w+)`: a nonempty maximal word; returns (word, rest). -/
def parseWord1 (s : Str) : Option (Str × Str) :=
  let w := s.takeWhile isWordChar
  if w.isEmpty then none else some (w, s.dropWhile isWordChar)

/-- `([^x]+)`: a nonempty maximal run of characters different from `x`. -/
def parseUntil (x : Char) (s : Str) : Option (Str × Str) :=
  let w := s.takeWhile (fun c => c != x)
  if w.isEmpty then none else some (w, s.dropWhile (fun c => c != x))

/-- Generic fuelled engine for `re.sub` with a function replacement: at each
position try the matcher; on a match emit its replacement and continue after
the match, otherwise copy one character.  Our matchers never match the empty
string, which the `length` guard makes explicit. -/
def scanSub (m : Str → Option (Str × Str)) : Nat → Str → Str
  | 0, s => s
  | _ + 1, [] => []
  | fuel + 1, c :: rest =>
    match m (c :: rest) with
    | some (r, s') =>
      if s'.length < rest.length + 1 then r ++ scanSub m fuel s'
      else c :: scanSub m fuel rest
    | none => c :: scanSub m fuel rest

/-- `re.sub` whose replacement function may raise (models `replace_for`). -/
def scanSubE {α : Type} (m : Str → Option (α × Str)) (repl : α → Except Unit Str) :
    Nat → Str → Except Unit Str
  | 0, s => .ok s
  | _ + 1, [] => .ok []
  | fuel + 1, c :: rest =>
    match m (c :: rest) with
    | some (a, s') =>
      if s'.length < rest.length + 1 then do
        let r ← repl a
        let tailR ← scanSubE m repl fuel s'
        pure (r ++ tailR)
      else do
        let tailR ← scanSubE m repl fuel rest
        pure (c :: tailR)
    | none => do
      let tailR ← scanSubE m repl fuel rest
      pure (c :: tailR)

/-! ### Markdown converter (`markdown_to_html`, source lines 20-84) -/

/-- Matcher for the inline-link regex `\[([^\]]+)\]\(([^)]+)\)`; the
replacement is `<a href="url" target="_blank">label</a>`. -/
def linkMatchAt (s : Str) : Option (Str × Str) := do
  let s1 ← parseLit (S "[") s
  let (label, s2) ← parseUntil ']' s1
  let s3 ← parseLit (S "]") s2
  let s4 ← parseLit (S "(") s3
  let (url, s5) ← parseUntil ')' s4
  let s6 ← parseLit (S ")") s5
  pure (S "<a href=\"" ++ url ++ S "\" target=\"_blank\">" ++ label ++ S "</a>", s6)

/-- The bullet test `^[•\-]\s+` applied with `.match` to an already stripped
line: a marker character followed by at least one whitespace. -/
def isBulletLine : Str → Bool
  | c :: d :: _ => (c == '•' || c == '-') && pyIsSpace d
  | _ => false

/-- `bullet_pattern.sub('', line)` on a stripped single line: remove the
leading marker and the maximal whitespace run after it. -/
def stripBullet (l : Str) : Str :=
  if isBulletLine l then (l.drop 1).dropWhile pyIsSpace else l

/-- `'<ul>' + ''.join(f'<li>{item}</li>' ...) + '</ul>'`. -/
def ulTag (items : List Str) : Str :=
  S "<ul>" ++ (items.map (fun i => S "<li>" ++ i ++ S "</li>")).flatten ++ S "</ul>"

/-- `f'<p>{line}</p>'`. -/
def pTag (l : Str) : Str := S "<p>" ++ l ++ S "</p>"

/-- State of the mixed-content loop (source lines 56-75):
accumulated fragments, the `in_list` flag, and pending list items. -/
structure MState where
  res : List Str
  inList : Bool
  items : List Str

/-- One iteration of the mixed-content loop: a bullet line joins the pending
list, any other line first flushes the pending list and then (if nonempty
after stripping) becomes a paragraph. -/
def mixedStep (st : MState) (line : Str) : MState :=
  let l := pyStrip line
  if isBulletLine l then
    { res := st.res, inList := true, items := st.items ++ [stripBullet l] }
  else
    let res' := if st.inList then st.res ++ [ulTag st.items] else st.res
    if l.isEmpty then { res := res', inList := false, items := [] }
    else { res := res' ++ [pTag l], inList := false, items := [] }

/-- After the loop: `if list_items: result.append('<ul>'...)`. -/
def mixedFinish (st : MState) : List Str :=
  if st.items.isEmpty then st.res else st.res ++ [ulTag st.items]

/-- The mixed-content branch on the block's lines. -/
def mixedHtml (lines : List Str) : Str :=
  (mixedFinish (lines.foldl mixedStep ⟨[], false, []⟩)).flatten

/-- Render one (already stripped, nonempty) paragraph block (lines 47-82). -/
def renderPara (p : Str) : Str :=
  let lines := splitOnSub (S "\n") p
  let bulletLines := lines.filter (fun l => isBulletLine (pyStrip l))
  if !bulletLines.isEmpty && bulletLines.length == lines.length then
    ulTag (lines.map (fun l => stripBullet (pyStrip l)))
  else if !bulletLines.isEmpty then
    mixedHtml lines
  else
    pTag ((S "<br>").intercalate ((lines.map pyStrip).filter (fun l => !l.isEmpty)))

/-- `markdown_to_html` (source lines 20-84). -/
def markdown_to_html (text : Str) : Str :=
  if text.isEmpty then []
  else
    let t1 := scanSub linkMatchAt (text.length + 1) text
    let paragraphs := splitOnSub (S "\n\n") (pyStrip t1)
    let parts := paragraphs.foldl
      (fun acc para =>
        let p := pyStrip para
        if p.isEmpty then acc else acc ++ [renderPara p]) []
    (S "\n").intercalate parts

/-! ### YouTube id extraction (`extract_youtube_id`, source lines 92-102) -/

/-- A character of the id class `[a-zA-Z0-9_-]`. -/
def isIdChar (c : Char) : Bool := c.isAlphanum || c == '_' || c == '-'

/-- The three alternatives of `YOUTUBE_PATTERN`, in source order. -/
def ytShapes : List Str :=
  [S "youtube.com/watch?v=", S "youtu.be/", S "youtube.com/embed/"]

/-- Try one alternative `p` at the head of `t`: `p` must be a literal
prefix, followed by at least 11 id characters; the capture is those 11
characters. -/
def ytTry (p t : Str) : Option Str :=
  if p.isPrefixOf t then
    if ((t.drop p.length).take 11).length == 11
        && ((t.drop p.length).take 11).all isIdChar then
      some ((t.drop p.length).take 11)
    else none
  else none

/-- Try the pattern at the head of `t`: the alternatives in source order. -/
def ytMatchAt (t : Str) : Option Str :=
  ytShapes.findSome? (fun p => ytTry p t)

/-- `re.search`: try each start position left to right. -/
def ytSearch : Str → Option Str
  | [] => none
  | c :: rest =>
    match ytMatchAt (c :: rest) with
    | some r => some r
    | none => ytSearch rest

/-- `extract_youtube_id` (source lines 96-102). -/
def extract_youtube_id (url : Str) : Str := (ytSearch url).getD []

/-! ### The YAML value model -/

/-- Model of the Python values the generator manipulates: strings, dicts
with string keys (insertion ordered, unique keys) and lists. -/
inductive YVal : Type where
  | s (v : Str)
  | m (d : List (Str × YVal))
  | l (xs : List YVal)

/-- Python dict lookup (keys are unique; first match). -/
def dlookup : List (Str × YVal) → Str → Option YVal
  | [], _ => none
  | p :: rest, k => if p.1 = k then some p.2 else dlookup rest k

/-- Python dict assignment `d[k] = v`: replace in place, else append. -/
def dset : List (Str × YVal) → Str → YVal → List (Str × YVal)
  | [], k, v => [(k, v)]
  | p :: rest, k, v => if p.1 = k then (k, v) :: rest else p :: dset rest k v

/-- `d.get(k, dflt)` on a value already known to be a dict. -/
def dgetD (d : List (Str × YVal)) (k : Str) (dflt : YVal) : YVal :=
  (dlookup d k).getD dflt

/-- `obj.get(k, dflt)`: raises `AttributeError` when `obj` is not a dict. -/
def pyGet (obj : YVal) (k : Str) (dflt : YVal) : Except Unit YVal :=
  match obj with
  | .m d => .ok (dgetD d k dflt)
  | _ => .error ()

/-- Python falsiness of the modelled values: empty string/dict/list. -/
def pyFalsy : YVal → Bool
  | .s v => v.isEmpty
  | .m d => d.isEmpty
  | .l xs => xs.isEmpty

/-- Iterating a Python value: a list yields its elements, a string its
characters (as 1-character strings), a dict its keys. -/
def pyIter : YVal → List YVal
  | .l xs => xs
  | .s v => v.map (fun c => YVal.s [c])
  | .m d => d.map (fun p => YVal.s p.1)

/-- A value used where only a `str` works (`.strip()`, `re.search`,
`str.replace`); anything else raises. -/
def expectStr : YVal → Except Unit Str
  | .s v => .ok v
  | _ => .error ()

/-- `item.items()`: raises on a non-dict. -/
def pyItems : YVal → Except Unit (List (Str × YVal))
  | .m d => .ok d
  | _ => .error ()

/-- CPython `repr` of a quote-free string (quote escaping is never exercised
by the generator's data). -/
def pyQuote (v : Str) : Str := '\'' :: (v ++ ['\''])

/-- Bounded-depth model of Python `str()`/`repr()` on aggregates.  The
generator applies `str` only to strings in every reachable configuration, so
only the depth-independent string case matters for the claims. -/
def pyReprF : Nat → YVal → Str
  | 0, _ => []
  | _ + 1, .s v => pyQuote v
  | fuel + 1, .m d =>
    '{' :: ((S ", ").intercalate
      (d.map (fun p => pyQuote p.1 ++ S ": " ++ pyReprF fuel p.2)) ++ ['}'])
  | fuel + 1, .l xs =>
    '[' :: ((S ", ").intercalate (xs.map (pyReprF fuel)) ++ [']'])

/-- Python `str(value)`: the identity on strings, `repr`-style on
aggregates. -/
def pyStr : YVal → Str
  | .s v => v
  | .m d => pyReprF 64 (.m d)
  | .l xs => pyReprF 64 (.l xs)

/-! ### Template engine (`render_template`, source lines 109-157) -/

/-- Context type: the flat template context is itself a Python dict. -/
abbrev Assoc : Type := List (Str × YVal)

/-- The literal text `{{ var.key }}` built by the f-string in the loop body
substitution (line 136). -/
def loopPat (varName key : Str) : Str :=
  S "\x7b\x7b " ++ varName ++ ('.' :: key) ++ S " \x7d\x7d"

/-- The literal text `{{ key }}` used by the plain-variable pass (line 155). -/
def varPat (key : Str) : Str := S "\x7b\x7b " ++ key ++ S " \x7d\x7d"

/-- Per-item body rendering (lines 133-137): for each field of the item, in
dict order, replace every occurrence of `{{ var.key }}` by `str(value)`. -/
def renderItem (varName body : Str) (d : List (Str × YVal)) : Str :=
  d.foldl (fun b kv => pyReplaceAll b (loopPat varName kv.1) (pyStr kv.2)) body

/-- The item loop of `replace_for` (lines 131-137); raises when an item is
not a dict (`item.items()`). -/
def renderAllItems (varName body : Str) : List YVal → Except Unit (List Str)
  | [] => .ok []
  | item :: rest => do
    let d ← pyItems item
    let tailR ← renderAllItems varName body rest
    pure (renderItem varName body d :: tailR)

/-- `replace_for` (lines 122-139): empty replacement for a missing or falsy
list, otherwise the per-item renderings joined with no separator. -/
def replace_for (ctx : Assoc) (varName listName body : Str) : Except Unit Str := do
  let items := dgetD ctx listName (YVal.l [])
  if pyFalsy items then pure []
  else do
    let rendered ← renderAllItems varName body (pyIter items)
    pure rendered.flatten

/-- Matcher for the delimiter `\{%\s*endfor\s*%\}`. -/
def endforAt (s : Str) : Option Str := do
  let s1 ← parseLit (S "\x7b%") s
  let s2 ← parseLit (S "endfor") (skipSpaces s1)
  parseLit (S "%\x7d") (skipSpaces s2)

/-- The non-greedy gap `(.*?)` before the endfor delimiter: the shortest
prefix after which the delimiter matches; returns (body, rest). -/
def findEndfor : Str → Option (Str × Str)
  | [] => none
  | c :: tail =>
    match endforAt (c :: tail) with
    | some rest => some ([], rest)
    | none => (findEndfor tail).map (fun p => (c :: p.1, p.2))

/-- Tail of the loop-block matcher: the non-greedy body and the endfor
delimiter. -/
def forMatchStage5 (varName listName s9 : Str) : Option ((Str × Str × Str) × Str) :=
  match findEndfor s9 with
  | some (body, rest) => some ((varName, listName, body), rest)
  | none => none

/-- `\s*%\}` after the list variable. -/
def forMatchStage4 (varName listName s8 : Str) : Option ((Str × Str × Str) × Str) := do
  let s9 ← parseLit (S "%\x7d") (skipSpaces s8)
  forMatchStage5 varName listName s9

/-- `(\w+)` for the list variable. -/
def forMatchStage3 (varName s7 : Str) : Option ((Str × Str × Str) × Str) := do
  let (listName, s8) ← parseWord1 s7
  forMatchStage4 varName listName s8

/-- `\s+in\s+` between the two variables. -/
def forMatchStage2b (varName s4 : Str) : Option ((Str × Str × Str) × Str) := do
  let s5 ← parseSpaces1 s4
  let s6 ← parseLit (S "in") s5
  let s7 ← parseSpaces1 s6
  forMatchStage3 varName s7

/-- `(\w+)` for the item variable. -/
def forMatchStage2 (s3 : Str) : Option ((Str × Str × Str) × Str) := do
  let (varName, s4) ← parseWord1 s3
  forMatchStage2b varName s4

/-- Matcher for the loop-block regex
`\{%\s*for\s+(\w+)\s+in\s+(\w+)\s*%\}(.*?)\{%\s*endfor\s*%\}` (lines
117-120); returns ((var, list, body), rest-after-match). -/
def forMatchAt (s : Str) : Option ((Str × Str × Str) × Str) := do
  let s1 ← parseLit (S "\x7b%") s
  let s2 ← parseLit (S "for") (skipSpaces s1)
  let s3 ← parseSpaces1 s2
  forMatchStage2 s3

/-- Pass 1 (line 141): `for_pattern.sub(replace_for, result)`. -/
def applyForPass (ctx : Assoc) (t : Str) : Except Unit Str :=
  scanSubE forMatchAt (fun g => replace_for ctx g.1 g.2.1 g.2.2) (t.length + 1) t

/-- First half of the ternary regex: `\{\{\s*'([^']+)'\s+if\s+(\w+)`;
returns ((valTrue, var), rest). -/
def condMatchHead (s : Str) : Option ((Str × Str) × Str) := do
  let s1 ← parseLit (S "\x7b\x7b") s
  let s2 ← parseLit (S "'") (skipSpaces s1)
  let (valTrue, s3) ← parseUntil '\'' s2
  let s4 ← parseLit (S "'") s3
  let s5 ← parseSpaces1 s4
  let s6 ← parseLit (S "if") s5
  let s7 ← parseSpaces1 s6
  let (varName, s8) ← parseWord1 s7
  pure ((valTrue, varName), s8)

/-- Second half of the ternary regex:
`\s*==\s*'([^']+)'\s+else\s*'([^']*)'\s*\}\}`; returns
((checkVal, valFalse), rest). -/
def condMatchTail (s8 : Str) : Option ((Str × Str) × Str) := do
  let s9 ← parseLit (S "==") (skipSpaces s8)
  let s10 ← parseLit (S "'") (skipSpaces s9)
  let (checkVal, s11) ← parseUntil '\'' s10
  let s12 ← parseLit (S "'") s11
  let s13 ← parseSpaces1 s12
  let s14 ← parseLit (S "else") s13
  let s15 ← parseLit (S "'") (skipSpaces s14)
  let valFalse := s15.takeWhile (fun c => c != '\'')
  let s17 ← parseLit (S "'") (s15.dropWhile (fun c => c != '\''))
  let s18 ← parseLit (S "\x7d\x7d") (skipSpaces s17)
  pure ((checkVal, valFalse), s18)

/-- Matcher for the ternary regex
`\{\{\s*'([^']+)'\s+if\s+(\w+)\s*==\s*'([^']+)'\s+else\s*'([^']*)'\s*\}\}`
(line 144); returns ((valTrue, var, checkVal, valFalse), rest). -/
def condMatchAt (s : Str) : Option ((Str × Str × Str × Str) × Str) := do
  let (h, s8) ← condMatchHead s
  let (t, s18) ← condMatchTail s8
  pure ((h.1, h.2, t.1, t.2), s18)

/-- `replace_cond` (lines 146-148): `context.get(var) == check_val` is a
Python equality test between an arbitrary value and a string. -/
def condRepl (ctx : Assoc) (g : Str × Str × Str × Str) : Str :=
  match dlookup ctx g.2.1 with
  | some (.s v) => if v = g.2.2.1 then g.1 else g.2.2.2
  | _ => g.2.2.2

/-- Pass 2 (line 150): `cond_pattern.sub(replace_cond, result)`. -/
def applyCondPass (ctx : Assoc) (t : Str) : Str :=
  scanSub (fun s => (condMatchAt s).map (fun p => (condRepl ctx p.1, p.2)))
    (t.length + 1) t

/-- Pass 3 (lines 153-155): for every context entry whose value is not a
list or dict, replace every `{{ key }}` with `str(value)`. -/
def applyVarPass (ctx : Assoc) (t : Str) : Str :=
  ctx.foldl
    (fun acc kv =>
      match kv.2 with
      | .m _ => acc
      | .l _ => acc
      | v => pyReplaceAll acc (varPat kv.1) (pyStr v)) t

/-- `render_template` (source lines 109-157): the three passes in order. -/
def render_template (template : Str) (ctx : Assoc) : Except Unit Str := do
  let r1 ← applyForPass ctx template
  pure (applyVarPass ctx (applyCondPass ctx r1))

/-! ### Context builder (`get_text`, `build_context`, source lines 164-267) -/

/-- `get_text(obj, key, lang)` (lines 164-172): `obj.get(key, {})`, then a
language lookup with `'fr'` fallback if the value is a dict, else
`str(value)`.  Raises when `obj` is not a dict. -/
def get_text (obj : YVal) (key lang : Str) : Except Unit YVal := do
  let value ← pyGet obj key (YVal.m [])
  match value with
  | .m d => pure (dgetD d lang (dgetD d (S "fr") (YVal.s [])))
  | v => pure (YVal.s (pyStr v))

/-- The fixed navigation-label table (lines 184-190). -/
structure NavLabels where
  recherche : Str
  medias : Str
  oiseaux : Str
  scroll : Str
  gallery : Str

/-- French labels. -/
def frLabels : NavLabels :=
  ⟨S "Recherche", S "Médias", S "Photos", S "Défiler", S "Voir la galerie"⟩

/-- English labels. -/
def enLabels : NavLabels :=
  ⟨S "Research", S "Media", S "Photos", S "Scroll", S "View gallery"⟩

/-- `nav_labels.get(lang, nav_labels['fr'])`. -/
def labelsFor (lang : Str) : NavLabels :=
  if lang = S "fr" then frLabels
  else if lang = S "en" then enLabels
  else frLabels

/-- The video loop (lines 193-200): keep only entries whose URL yields an
id; each kept entry is `{'video_id': id, 'titre': t(v, 'titre')}`. -/
def buildVideos (config : Assoc) (lang : Str) : Except Unit (List YVal) := do
  let medias := dgetD config (S "medias") (YVal.m [])
  let vids ← pyGet medias (S "videos") (YVal.l [])
  (pyIter vids).foldlM
    (fun acc v => do
      let uv ← pyGet v (S "url") (YVal.s [])
      let url ← expectStr uv
      let vid := extract_youtube_id url
      if vid.isEmpty then pure acc
      else do
        let ti ← get_text v (S "titre") lang
        pure (acc ++ [YVal.m [(S "video_id", YVal.s vid), (S "titre", ti)]]))
    []

/-- The discoveries loop (lines 203-209): mapped 1:1, no filtering. -/
def buildDecouvertes (config : Assoc) (lang : Str) : Except Unit (List YVal) := do
  let medias := dgetD config (S "medias") (YVal.m [])
  let decs ← pyGet medias (S "decouvertes") (YVal.l [])
  (pyIter decs).foldlM
    (fun acc d => do
      let ti ← get_text d (S "titre") lang
      let an ← pyGet d (S "annee") (YVal.s [])
      let u ← pyGet d (S "url") (YVal.s [])
      pure (acc ++ [YVal.m [(S "titre", ti), (S "annee", an), (S "url", u)]]))
    []

/-- `markdown_to_html(t(...))` call semantics: the converter's falsy check
short-circuits, otherwise `re.sub` requires a `str`. -/
def mdOfY (v : YVal) : Except Unit Str :=
  if pyFalsy v then .ok []
  else
    match v with
    | .s w => .ok (markdown_to_html w)
    | _ => .error ()

/-- `'titre': t(config, 'titre')`. -/
def titreF (config : Assoc) (lang : Str) : Except Unit YVal :=
  get_text (YVal.m config) (S "titre") lang

/-- `'intro': t(config, 'intro').strip()`. -/
def introF (config : Assoc) (lang : Str) : Except Unit Str := do
  let tv ← get_text (YVal.m config) (S "intro") lang
  let sv ← expectStr tv
  pure (pyStrip sv)

/-- `'oiseaux_lien': config.get('liens', {}).get('galerie_oiseaux', '')
.replace('_fr', f'_{lang}')` (line 254): note that Python's `str.replace`
replaces every occurrence of `_fr`. -/
def oiseauxLienF (config : Assoc) (lang : Str) : Except Unit Str := do
  let uv ← pyGet (dgetD config (S "liens") (YVal.m [])) (S "galerie_oiseaux")
    (YVal.s [])
  let url ← expectStr uv
  pure (pyReplaceAll url (S "_fr") ('_' :: lang))

/-- The first, later-overwritten computation of `footer_text`
(lines 257-259). -/
def footerFirstF (config : Assoc) (lang : Str) : Except Unit YVal :=
  match dlookup config (S "footer") with
  | some (YVal.m d) =>
    get_text (YVal.m d) (if lang = S "fr" then S "fr" else S "en") lang
  | some v => pyGet v lang (YVal.s [])
  | none => pyGet (YVal.m []) lang (YVal.s [])

/-- All fallible pieces of the context, bound in source evaluation order. -/
structure Parts where
  videos : List YVal
  decouvertes : List YVal
  titre : YVal
  affiliation_inst : YVal
  affiliation_dept : YVal
  email : YVal
  orcid : YVal
  intro : Str
  recherche_titre : YVal
  recherche_photo : YVal
  recherche_contenu : Str
  medias_titre : YVal
  ads_url : YVal
  ads_texte : YVal
  decouvertes_titre : YVal
  oiseaux_titre : YVal
  oiseaux_photo : YVal
  oiseaux_contenu : Str
  oiseaux_lien : Str
  footer_first : YVal

/-- Evaluate every fallible sub-expression of `build_context`, in the order
Python evaluates them (the two loops, then the dict literal top-down). -/
def buildParts (config : Assoc) (lang : Str) : Except Unit Parts := do
  let videos ← buildVideos config lang
  let decouvertes ← buildDecouvertes config lang
  let titre ← titreF config lang
  let affiliation_inst ← pyGet (dgetD config (S "affiliation") (YVal.m []))
    (S "institution") (YVal.s [])
  let affiliation_dept ← get_text (dgetD config (S "affiliation") (YVal.m []))
    (S "departement") lang
  let email ← pyGet (dgetD config (S "liens") (YVal.m [])) (S "email") (YVal.s [])
  let orcid ← pyGet (dgetD config (S "liens") (YVal.m [])) (S "orcid") (YVal.s [])
  let intro ← introF config lang
  let recherche_titre ← get_text (dgetD config (S "recherche") (YVal.m []))
    (S "titre") lang
  let recherche_photo ← pyGet (dgetD config (S "recherche") (YVal.m []))
    (S "photo") (YVal.s [])
  let recherche_contenu ← do
    let cv ← get_text (dgetD config (S "recherche") (YVal.m [])) (S "contenu") lang
    mdOfY cv
  let medias_titre ← get_text (dgetD config (S "medias") (YVal.m [])) (S "titre") lang
  let ads_url ← pyGet (dgetD config (S "medias") (YVal.m [])) (S "ads_url") (YVal.s [])
  let ads_texte ← get_text (dgetD config (S "medias") (YVal.m [])) (S "ads_texte") lang
  let decouvertes_titre ← get_text (dgetD config (S "medias") (YVal.m []))
    (S "decouvertes_titre") lang
  let oiseaux_titre ← get_text (dgetD config (S "oiseaux") (YVal.m [])) (S "titre") lang
  let oiseaux_photo ← pyGet (dgetD config (S "oiseaux") (YVal.m [])) (S "photo")
    (YVal.s [])
  let oiseaux_contenu ← do
    let cv ← get_text (dgetD config (S "oiseaux") (YVal.m [])) (S "contenu") lang
    mdOfY cv
  let oiseaux_lien ← oiseauxLienF config lang
  let footer_first ← footerFirstF config lang
  pure ⟨videos, decouvertes, titre, affiliation_inst, affiliation_dept, email,
    orcid, intro, recherche_titre, recherche_photo, recherche_contenu,
    medias_titre, ads_url, ads_texte, decouvertes_titre, oiseaux_titre,
    oiseaux_photo, oiseaux_contenu, oiseaux_lien, footer_first⟩

/-- The context dict literal (lines 212-260), in source key order. -/
def ctxList (config : Assoc) (lang : Str) (p : Parts) : Assoc :=
  [(S "lang", YVal.s lang),
   (S "nom", dgetD config (S "nom") (YVal.s [])),
   (S "titre", p.titre),
   (S "photo", dgetD config (S "photo") (YVal.s [])),
   (S "css_path", dgetD config (S "css_path") (YVal.s [])),
   (S "affiliation_inst", p.affiliation_inst),
   (S "affiliation_dept", p.affiliation_dept),
   (S "email", p.email),
   (S "orcid", p.orcid),
   (S "nav_recherche", YVal.s (labelsFor lang).recherche),
   (S "nav_medias", YVal.s (labelsFor lang).medias),
   (S "nav_oiseaux", YVal.s (labelsFor lang).oiseaux),
   (S "scroll_hint", YVal.s (labelsFor lang).scroll),
   (S "oiseaux_bouton", YVal.s (labelsFor lang).gallery),
   (S "intro", YVal.s p.intro),
   (S "recherche_titre", p.recherche_titre),
   (S "recherche_photo", p.recherche_photo),
   (S "recherche_contenu", YVal.s p.recherche_contenu),
   (S "medias_titre", p.medias_titre),
   (S "ads_url", p.ads_url),
   (S "ads_texte", p.ads_texte),
   (S "decouvertes_titre", p.decouvertes_titre),
   (S "videos", YVal.l p.videos),
   (S "decouvertes", YVal.l p.decouvertes),
   (S "oiseaux_titre", p.oiseaux_titre),
   (S "oiseaux_photo", p.oiseaux_photo),
   (S "oiseaux_contenu", YVal.s p.oiseaux_contenu),
   (S "oiseaux_lien", YVal.s p.oiseaux_lien),
   (S "footer_text", p.footer_first)]

/-- The `# Fix footer for simple dict structure` block (lines 262-265):
when `config.get('footer', {})` is a dict, overwrite `footer_text` with
`footer.get(lang, footer.get('fr', ''))`. -/
def fixFooter (config : Assoc) (lang : Str) (context : Assoc) : Assoc :=
  match dgetD config (S "footer") (YVal.m []) with
  | .m d => dset context (S "footer_text")
      (dgetD d lang (dgetD d (S "fr") (YVal.s [])))
  | _ => context

/-- `build_context` (source lines 175-267). -/
def build_context (config : Assoc) (lang : Str) : Except Unit Assoc :=
  (buildParts config lang).map (fun p => fixFooter config lang (ctxList config lang p))

/-! ### The redirect page (`generate_pages`, source lines 301-320) -/

/-- The literal `index.html` written by `generate_pages` (lines 302-316). -/
def redirect_html : Str := S "<!DOCTYPE html>\n<html>\n<head>\n    <meta charset=\"UTF-8\">\n    <meta http-equiv=\"refresh\" content=\"0; url=index_fr.html\">\n    <script>\n        const userLang = navigator.language || navigator.userLanguage;\n        const targetLang = userLang.startsWith('fr') ? 'fr' : 'en';\n        window.location.href = 'index_' + targetLang + '.html';\n    </script>\n</head>\n<body>\n    <p>Redirecting... <a href=\"index_fr.html\">Français</a> | <a href=\"index_en.html\">English</a></p>\n</body>\n</html>"

/-- Routing logic of the language-detection script embedded in
`redirect_html`: `userLang.startsWith('fr') ? 'fr' : 'en'`. -/
def redirectTarget (userLang : Str) : Str :=
  if (S "fr").isPrefixOf userLang then S "fr" else S "en"

/-! ### Spec-side definitions used to compare against claims -/

/-- A canonically spaced loop block, as produced in a template:
`{% for v in l %}body{% endfor %}`. -/
def mkForBlock (varName listName body : Str) : Str :=
  S "\x7b% for "
    ++ (varName ++ (S " in " ++ (listName ++ (S " %\x7d"
    ++ (body ++ S "\x7b% endfor %\x7d")))))

/-- Spec-side routing, following the claim's words: route to the French
variant unless the preferred language begins with `en`. -/
def claimRoute (userLang : Str) : Str :=
  if (S "en").isPrefixOf userLang then S "en" else S "fr"

/-- Spec-side replacement following the claim's words for C1: replace only
the first occurrence of `pat`. -/
def specReplaceFirst (pat rep : Str) : Str → Str
  | [] => []
  | c :: rest =>
    if pat.isPrefixOf (c :: rest) then rep ++ (c :: rest).drop pat.length
    else c :: specReplaceFirst pat rep rest

/-- Spec-side rendering of a mixed block, following the spec's words: scan
the lines in order accumulating consecutive bullet lines into a pending
list; a non-bullet line first flushes the pending list and, when nonempty,
becomes a standalone paragraph; a still-pending list is flushed at block
end. -/
def mixedSpec : List Str → List Str → List Str
  | pending, [] => if pending.isEmpty then [] else [ulTag pending]
  | pending, line :: ls =>
    let t := pyStrip line
    if isBulletLine t then mixedSpec (pending ++ [stripBullet t]) ls
    else
      (if pending.isEmpty then [] else [ulTag pending])
        ++ (if t.isEmpty then [] else [pTag t]) ++ mixedSpec [] ls

/-- Spec-side predicate, following the claim's words for C2: one of the
three URL shapes occurs at offset `i` of `s`, followed by the 11-character
identifier `id` of alphanumerics, underscore or hyphen. -/
def ytShapeMatchAt (s : Str) (i : Nat) (id : Str) : Prop :=
  ∃ p, p ∈ ytShapes
    ∧ ∃ rest, s.drop i = p ++ id ++ rest ∧ id.length = 11 ∧ id.all isIdChar = true

/-! ### Concrete evaluations checking the embedding's semantics -/

example : pyReplaceAll (S "gal_fr/page_fr.html") (S "_fr") (S "_en")
    = S "gal_en/page_en.html" := by decide

example : pyReplaceAll (S "ab") [] (S "X") = S "XaXbX" := by decide

example : splitOnSub (S "\n\n") (S "a\n\nb\nc") = [S "a", S "b\nc"] := by decide

example : splitOnSub (S "\n") (S "x") = [S "x"] := by decide

example : markdown_to_html (S "- a\n- b")
    = S "<ul><li>a</li><li>b</li></ul>" := by decide

example : markdown_to_html (S "line one\nline two")
    = S "<p>line one<br>line two</p>" := by decide

example : markdown_to_html (S "intro line\n- item1\n- item2")
    = S "<p>intro line</p><ul><li>item1</li><li>item2</li></ul>" := by decide

example : markdown_to_html (S "- a\n \n- b")
    = S "<ul><li>a</li></ul><ul><li>b</li></ul>" := by decide

example : markdown_to_html (S "see [x](http://u) now")
    = S "<p>see <a href=\"http://u\" target=\"_blank\">x</a> now</p>" := by decide

example : markdown_to_html (S "") = S "" := by decide

example : extract_youtube_id (S "https://youtu.be/dQw4w9WgXcQ") = S "dQw4w9WgXcQ" := by
  decide

example : extract_youtube_id (S "https://example.com/video") = S "" := by decide

example : extract_youtube_id (S "https://www.youtube.com/watch?v=abcDEF123_-&t=1")
    = S "abcDEF123_-" := by decide

example : extract_youtube_id (S "youtube.com/embed/shortid") = S "" := by decide

example : render_template (S "\x7b\x7b x \x7d\x7d") [(S "x", YVal.s (S "hi"))]
    = .ok (S "hi") := rfl

example : render_template (S "\x7b\x7b y \x7d\x7d") [(S "x", YVal.s (S "hi"))]
    = .ok (S "\x7b\x7b y \x7d\x7d") := rfl

example : render_template
    (S "\x7b% for v in videos %\x7d[\x7b\x7b v.titre \x7d\x7d]\x7b% endfor %\x7d")
    [(S "videos", YVal.l [YVal.m [(S "titre", YVal.s (S "A"))],
                          YVal.m [(S "titre", YVal.s (S "B"))]])]
    = .ok (S "[A][B]") := rfl

example : render_template
    (S "\x7b% for v in videos %\x7dXX\x7b% endfor %\x7d") []
    = .ok (S "") := rfl

example : render_template
    (S "\x7b\x7b 'AA' if lang == 'fr' else 'BB' \x7d\x7d")
    [(S "lang", YVal.s (S "fr"))] = .ok (S "AA") := rfl

example : render_template
    (S "\x7b\x7b 'AA' if lang == 'fr' else 'BB' \x7d\x7d")
    [(S "lang", YVal.s (S "en"))] = .ok (S "BB") := rfl

example :
    (build_context
      [(S "footer", YVal.m [(S "fr", YVal.s (S "pied"))])] (S "en")).map
      (fun ctx => dlookup ctx (S "footer_text"))
    = .ok (some (YVal.s (S "pied"))) := rfl

example :
    (build_context
      [(S "liens", YVal.m [(S "galerie_oiseaux", YVal.s (S "g_fr/p_fr.html"))])]
      (S "en")).map (fun ctx => dlookup ctx (S "oiseaux_lien"))
    = .ok (some (YVal.s (S "g_en/p_en.html"))) := rfl

example :
    (build_context
      [(S "titre", YVal.m [(S "fr", YVal.s (S "Bonjour"))])] (S "en")).map
      (fun ctx => dlookup ctx (S "titre"))
    = .ok (some (YVal.s (S "Bonjour"))) := rfl

/-! ### General lemmas -/

theorem exBind {α β : Type} {x : Except Unit α} {f : α → Except Unit β} {b : β}
    (h : (x >>= f) = .ok b) : ∃ a, x = .ok a ∧ f a = .ok b := by
  cases x with
  | error e => simp [Bind.bind, Except.bind] at h
  | ok a => exact ⟨a, rfl, by simpa [Bind.bind, Except.bind] using h⟩

theorem exMap_ok {α β : Type} {x : Except Unit α} {f : α → β} {b : β}
    (h : Except.map f x = .ok b) : ∃ a, x = .ok a ∧ f a = b := by
  cases x with
  | error e => simp [Except.map] at h
  | ok a => exact ⟨a, rfl, by simpa [Except.map] using h⟩

theorem dlookup_dset_self (d : Assoc) (k : Str) (v : YVal) :
    dlookup (dset d k v) k = some v := by
  induction d with
  | nil => simp [dset, dlookup]
  | cons p rest ih =>
    by_cases h : p.1 = k
    · simp [dset, h, dlookup]
    · simp [dset, h, dlookup, ih]

theorem dlookup_dset_ne (d : Assoc) (k k' : Str) (v : YVal) (h : k' ≠ k) :
    dlookup (dset d k v) k' = dlookup d k' := by
  have hkk : ¬ (k = k') := fun hh => h hh.symm
  induction d with
  | nil => simp only [dset, dlookup, if_neg hkk]
  | cons p rest ih =>
    by_cases hp : p.1 = k
    · have hp' : ¬ (p.1 = k') := by rw [hp]; exact hkk
      simp only [dset, if_pos hp, dlookup, if_neg hkk, if_neg hp']
    · simp only [dset, if_neg hp, dlookup, ih]

theorem isPrefixOf_eq_append {p s : Str} (h : p.isPrefixOf s = true) :
    p ++ s.drop p.length = s :=
  List.prefix_iff_eq_append.mp (List.isPrefixOf_iff_prefix.mp h)

theorem replAux_self {pat : Str} (hp : pat ≠ []) :
    ∀ fuel s, replAux pat pat fuel s = s := by
  intro fuel
  induction fuel with
  | zero => intro s; rfl
  | succ n ih =>
    intro s
    match s with
    | [] => rfl
    | c :: rest =>
      by_cases h : pat.isPrefixOf (c :: rest) = true
      · simp only [replAux, h, if_true]
        rw [ih ((c :: rest).drop pat.length), isPrefixOf_eq_append h]
      · simp only [replAux, h, if_false, Bool.false_eq_true]
        rw [ih rest]

/-- `s.replace(pat, pat)` is the identity. -/
theorem pyReplaceAll_self (s pat : Str) : pyReplaceAll s pat pat = s := by
  by_cases hp : pat = []
  · subst hp
    simp only [pyReplaceAll, List.isEmpty_nil, if_true, List.nil_append]
    induction s with
    | nil => rfl
    | cons c rest ih => simp [ih]
  · simp only [pyReplaceAll, List.isEmpty_iff, hp, if_false]
    exact replAux_self hp _ s

theorem replAux_noop {pat : Str} (rep : Str) :
    ∀ fuel s, ¬ pat <:+: s → replAux pat rep fuel s = s := by
  intro fuel
  induction fuel with
  | zero => intro s _; rfl
  | succ n ih =>
    intro s hs
    match s with
    | [] => rfl
    | c :: rest =>
      have hnp : pat.isPrefixOf (c :: rest) ≠ true := by
        intro h
        exact hs (List.isPrefixOf_iff_prefix.mp h).isInfix
      simp only [replAux, hnp, if_false, Bool.false_eq_true]
      rw [ih rest (fun h => hs (List.infix_cons h))]

/-- `s.replace(pat, rep) = s` when `pat` does not occur in `s`. -/
theorem pyReplaceAll_noop {pat s : Str} (rep : Str) (h : ¬ pat <:+: s) :
    pyReplaceAll s pat rep = s := by
  by_cases hp : pat = []
  · exact absurd (hp ▸ List.nil_infix) h
  · simp only [pyReplaceAll, List.isEmpty_iff, hp, if_false]
    exact replAux_noop rep _ s h

/-- `pat.replace(pat, rep) = rep` for nonempty `pat`. -/
theorem pyReplaceAll_exact {pat : Str} (rep : Str) (hp : pat ≠ []) :
    pyReplaceAll pat pat rep = rep := by
  match pat, hp with
  | c :: rest, _ =>
    simp only [pyReplaceAll, List.isEmpty_cons, if_false, Bool.false_eq_true]
    have hpre : (c :: rest).isPrefixOf (c :: rest) = true :=
      List.isPrefixOf_iff_prefix.mpr (List.prefix_refl _)
    simp only [List.length_cons, replAux, hpre, if_true]
    have hdrop : List.drop (rest.length + 1) (c :: rest) = [] :=
      List.drop_eq_nil_of_le (by simp)
    rw [hdrop]
    simp [replAux]

theorem scanSub_id {m : Str → Option (Str × Str)} :
    ∀ s fuel, (∀ t, t <:+ s → m t = none) → scanSub m fuel s = s := by
  intro s
  induction s with
  | nil => intro fuel _; cases fuel <;> rfl
  | cons c rest ih =>
    intro fuel h
    cases fuel with
    | zero => rfl
    | succ n =>
      have hm : m (c :: rest) = none := h _ (List.suffix_refl _)
      simp only [scanSub, hm]
      rw [ih n (fun t ht => h t (ht.trans (List.suffix_cons c rest)))]

theorem scanSubE_id {α : Type} {m : Str → Option (α × Str)} (repl : α → Except Unit Str) :
    ∀ s fuel, (∀ t, t <:+ s → m t = none) → scanSubE m repl fuel s = .ok s := by
  intro s
  induction s with
  | nil => intro fuel _; cases fuel <;> rfl
  | cons c rest ih =>
    intro fuel h
    cases fuel with
    | zero => rfl
    | succ n =>
      have hm : m (c :: rest) = none := h _ (List.suffix_refl _)
      simp only [scanSubE, hm]
      rw [ih n (fun t ht => h t (ht.trans (List.suffix_cons c rest)))]
      rfl

theorem litPre_iff : ∀ (l₁ l₂ : Str), litPre l₁ l₂ = true ↔ l₁ <+: l₂ := by
  intro l₁
  induction l₁ with
  | nil => intro l₂; simp [litPre, List.nil_prefix]
  | cons a as ih =>
    intro l₂
    match l₂ with
    | [] => simp [litPre]
    | b :: bs =>
      simp only [litPre, Bool.and_eq_true, beq_iff_eq, ih bs,
        List.cons_prefix_cons]

theorem parseLit_mem {lit t r : Str} (h : parseLit lit t = some r) :
    ∀ c ∈ lit, c ∈ t := by
  by_cases hp : litPre lit t = true
  · exact fun c hc => ((litPre_iff lit t).mp hp).subset hc
  · simp [parseLit, hp] at h

/-- If `%` does not occur in `t`, the loop-block matcher fails at `t`. -/
theorem forMatchAt_none {t : Str} (h : '%' ∉ t) : forMatchAt t = none := by
  cases hp : parseLit (S "\x7b%") t with
  | some r => exact absurd (parseLit_mem hp '%' (by decide)) h
  | none => simp [forMatchAt, hp, Option.bind]

/-- If `'` does not occur in `t`, the ternary matcher fails at `t`. -/
theorem condMatchAt_none {t : Str} (h : '\'' ∉ t) : condMatchAt t = none := by
  have hhead : condMatchHead t = none := by
    cases hp : parseLit (S "\x7b\x7b") t with
    | none => simp [condMatchHead, hp, Option.bind]
    | some s1 =>
      have hs1 : ∀ c ∈ s1, c ∈ t := by
        intro c hc
        have : s1 <:+ t := by
          have hdrop : s1 = t.drop (S "\x7b\x7b").length := by
            by_cases hh : litPre (S "\x7b\x7b") t = true
            · simpa [parseLit, hh] using hp.symm
            · simp [parseLit, hh] at hp
          rw [hdrop]
          exact List.drop_suffix _ t
        exact this.subset hc
      cases hq : parseLit (S "'") (skipSpaces s1) with
      | some r =>
        have hq1 : '\'' ∈ skipSpaces s1 := parseLit_mem hq '\'' (by decide)
        have : '\'' ∈ s1 := ((List.dropWhile_suffix pyIsSpace).subset hq1)
        exact absurd (hs1 _ this) h
      | none => simp [condMatchHead, hp, hq, Option.bind]
  simp [condMatchAt, hhead, Option.bind]

/-- Applying pass 3 to a text in which no scalar entry's placeholder occurs
leaves the text unchanged. -/
theorem applyVarPass_noop :
    ∀ (ctx : Assoc) (t : Str),
      (∀ kv ∈ ctx, (∃ w, kv.2 = YVal.s w) → ¬ varPat kv.1 <:+: t) →
      applyVarPass ctx t = t := by
  intro ctx
  induction ctx with
  | nil => intro t _; rfl
  | cons kv rest ih =>
    intro t h
    match hv : kv.2 with
    | .m d =>
      simp only [applyVarPass, List.foldl_cons, hv]
      exact ih t (fun p hp hw => h p (List.mem_cons_of_mem kv hp) hw)
    | .l xs =>
      simp only [applyVarPass, List.foldl_cons, hv]
      exact ih t (fun p hp hw => h p (List.mem_cons_of_mem kv hp) hw)
    | .s w =>
      have hno : ¬ varPat kv.1 <:+: t :=
        h kv (List.mem_cons_self kv rest) ⟨w, hv⟩
      simp only [applyVarPass, List.foldl_cons, hv, pyReplaceAll_noop _ hno]
      exact ih t (fun p hp hw => h p (List.mem_cons_of_mem kv hp) hw)

theorem mem_of_word {key : Str} (hk : key.all isWordChar = true) {c : Char}
    (hmem : c ∈ key) : isWordChar c = true :=
  List.all_eq_true.mp hk c hmem

theorem varPat_no_percent {key : Str} (hk : key.all isWordChar = true) :
    '%' ∉ varPat key := by
  intro hmem
  simp only [varPat, List.mem_append, S] at hmem
  rcases hmem with (h | h) | h
  · simp [String.data] at h
  · exact absurd (mem_of_word hk h) (by decide)
  · simp [String.data] at h

theorem varPat_no_quote {key : Str} (hk : key.all isWordChar = true) :
    '\'' ∉ varPat key := by
  intro hmem
  simp only [varPat, List.mem_append, S] at hmem
  rcases hmem with (h | h) | h
  · simp [String.data] at h
  · exact absurd (mem_of_word hk h) (by decide)
  · simp [String.data] at h

/-- C8: in `render(template, context)`, a placeholder that references a key
absent from the context is left verbatim in the output and no error is
raised, while a plain variable placeholder bound to a scalar value is
replaced by that value's string representation
(`render("{{ x }}", {x: "hi"}) = "hi"`). -/
theorem render_absent_verbatim_scalar_replaced (ctx : Assoc) (key : Str)
    (hk1 : key ≠ []) (hk2 : key.all isWordChar = true)
    (habs : dlookup ctx key = none)
    (hni : ∀ kv ∈ ctx, (∃ w, kv.2 = YVal.s w) → ¬ varPat kv.1 <:+: varPat key) :
    render_template (varPat key) ctx = .ok (varPat key)
    ∧ render_template (varPat (S "x")) [(S "x", YVal.s (S "hi"))] = .ok (S "hi") := by
  constructor
  · have h1 : applyForPass ctx (varPat key) = .ok (varPat key) := by
      apply scanSubE_id
      intro t ht
      exact forMatchAt_none (fun hc => varPat_no_percent hk2 (ht.subset hc))
    have h2 : applyCondPass ctx (varPat key) = varPat key := by
      apply scanSub_id
      intro t ht
      cases hc : condMatchAt t with
      | none => rfl
      | some p =>
        exact absurd
          (condMatchAt_none (fun hq => varPat_no_quote hk2 (ht.subset hq)) ▸ hc)
          (by simp)
    have h3 : applyVarPass ctx (varPat key) = varPat key := applyVarPass_noop ctx _ hni
    simp only [render_template, h1, h2, h3, Bind.bind, Except.bind]
    rfl
  · rfl

theorem render_absent_verbatim_scalar_replaced_witness :
    render_template (varPat (S "y")) [(S "x", YVal.s (S "hi"))] = .ok (varPat (S "y"))
    ∧ render_template (varPat (S "x")) [(S "x", YVal.s (S "hi"))] = .ok (S "hi") := by
  have h := render_absent_verbatim_scalar_replaced [(S "x", YVal.s (S "hi"))] (S "y")
    (by decide) (by decide) rfl
    (by
      intro kv hkv hw
      simp only [List.mem_singleton] at hkv
      subst hkv
      decide)
  exact h

/-- The per-item substitution leaves `b` unchanged when no field's
placeholder occurs in `b`. -/
theorem renderItem_noop (v : Str) :
    ∀ (d : List (Str × YVal)) (b : Str),
      (∀ kv ∈ d, ¬ loopPat v kv.1 <:+: b) → renderItem v b d = b := by
  intro d
  induction d with
  | nil => intro b _; rfl
  | cons kv rest ih =>
    intro b h
    have hno : ¬ loopPat v kv.1 <:+: b := h kv (List.mem_cons_self kv rest)
    simp only [renderItem, List.foldl_cons, pyReplaceAll_noop _ hno]
    exact ih b (fun p hp => h p (List.mem_cons_of_mem kv hp))

theorem loopPat_ne_nil (v k : Str) : loopPat v k ≠ [] := by
  simp [loopPat, S, String.data]

/-- C10: inside a loop body, a reference `itemVar.field` whose field is
absent from a given item's mapping is left verbatim in that item's
rendering; an item that does possess the field gets it substituted, so the
outcome differs item by item. -/
theorem loop_missing_field_verbatim (v f w : Str) (d : List (Str × YVal))
    (habs : dlookup d f = none)
    (hni : ∀ kv ∈ d, ¬ loopPat v kv.1 <:+: loopPat v f) :
    renderItem v (loopPat v f) d = loopPat v f
    ∧ renderItem v (loopPat v f) [(f, YVal.s w)] = w := by
  refine ⟨renderItem_noop v d (loopPat v f) hni, ?_⟩
  simp only [renderItem, List.foldl_cons, List.foldl_nil, pyStr]
  exact pyReplaceAll_exact w (loopPat_ne_nil v f)

theorem loop_missing_field_verbatim_witness :
    renderItem (S "v") (loopPat (S "v") (S "x")) [(S "y", YVal.s (S "1"))]
      = loopPat (S "v") (S "x")
    ∧ renderItem (S "v") (loopPat (S "v") (S "x")) [(S "x", YVal.s (S "A"))]
      = S "A" := by
  have h := loop_missing_field_verbatim (S "v") (S "x") (S "A")
    [(S "y", YVal.s (S "1"))] rfl
    (by
      intro kv hkv
      simp only [List.mem_singleton] at hkv
      subst hkv
      decide)
  exact h

set_option maxRecDepth 40000 in
/-- C3 counterexample: for the preferred language `de` the embedded script
routes to the English variant, while the claim (French unless the language
begins with `en`) requires the French one. -/
theorem redirect_routing_counterexample :
    redirectTarget (S "de") = S "en"
    ∧ claimRoute (S "de") = S "fr"
    ∧ redirectTarget (S "de") ≠ claimRoute (S "de")
    ∧ (S "userLang.startsWith('fr') ? 'fr' : 'en'") <:+: redirect_html := by
  refine ⟨by decide, by decide, by decide, ?_⟩
  decide

set_option maxRecDepth 40000 in
/-- C3 (amended): the generated `index.html` contains the language-detection
script that routes to the French variant exactly when the preferred language
begins with `fr`, and to the English variant otherwise; the page also
contains the textual fallback link pair for both languages. -/
theorem redirect_page_routing :
    ((S "<a href=\"index_fr.html\">Français</a>") <:+: redirect_html)
    ∧ ((S "<a href=\"index_en.html\">English</a>") <:+: redirect_html)
    ∧ ((S "userLang.startsWith('fr') ? 'fr' : 'en'") <:+: redirect_html)
    ∧ ∀ l0, (redirectTarget l0 = S "fr" ↔ (S "fr").isPrefixOf l0 = true)
        ∧ (redirectTarget l0 = S "en" ↔ (S "fr").isPrefixOf l0 = false) := by
  refine ⟨by decide, by decide, by decide, ?_⟩
  intro l0
  by_cases h : (S "fr").isPrefixOf l0 = true
  · constructor
    · exact ⟨fun _ => h, fun _ => by rw [redirectTarget, if_pos h]⟩
    · constructor
      · intro he
        rw [redirectTarget, if_pos h] at he
        exact absurd he (by decide)
      · intro hf
        rw [h] at hf
        exact absurd hf (by decide)
  · have h' : (S "fr").isPrefixOf l0 = false := Bool.eq_false_iff.mpr h
    constructor
    · constructor
      · intro he
        rw [redirectTarget, if_neg h] at he
        exact absurd he (by decide)
      · intro htrue
        exact absurd htrue h
    · exact ⟨fun _ => h', fun _ => by rw [redirectTarget, if_neg h]⟩

theorem build_ok_parts {config : Assoc} {lang : Str} {ctx : Assoc}
    (hb : build_context config lang = .ok ctx) :
    ∃ p, buildParts config lang = .ok p
      ∧ ctx = fixFooter config lang (ctxList config lang p) := by
  unfold build_context at hb
  obtain ⟨p, hp, hctx⟩ := exMap_ok hb
  exact ⟨p, hp, hctx.symm⟩

theorem buildParts_fields {config : Assoc} {lang : Str} {p : Parts}
    (h : buildParts config lang = .ok p) :
    titreF config lang = .ok p.titre
    ∧ oiseauxLienF config lang = .ok p.oiseaux_lien := by
  unfold buildParts at h
  obtain ⟨a1, h1, h⟩ := exBind h
  obtain ⟨a2, h2, h⟩ := exBind h
  obtain ⟨a3, h3, h⟩ := exBind h
  obtain ⟨a4, h4, h⟩ := exBind h
  obtain ⟨a5, h5, h⟩ := exBind h
  obtain ⟨a6, h6, h⟩ := exBind h
  obtain ⟨a7, h7, h⟩ := exBind h
  obtain ⟨a8, h8, h⟩ := exBind h
  obtain ⟨a9, h9, h⟩ := exBind h
  obtain ⟨a10, h10, h⟩ := exBind h
  obtain ⟨a11, h11, h⟩ := exBind h
  obtain ⟨a12, h12, h⟩ := exBind h
  obtain ⟨a13, h13, h⟩ := exBind h
  obtain ⟨a14, h14, h⟩ := exBind h
  obtain ⟨a15, h15, h⟩ := exBind h
  obtain ⟨a16, h16, h⟩ := exBind h
  obtain ⟨a17, h17, h⟩ := exBind h
  obtain ⟨a18, h18, h⟩ := exBind h
  obtain ⟨a19, h19, h⟩ := exBind h
  obtain ⟨a20, h20, h⟩ := exBind h
  obtain ⟨a21, h21, h⟩ := exBind h
  obtain ⟨a22, h22, h⟩ := exBind h
  have hp : Except.ok (ε := Unit)
      (Parts.mk a1 a2 a3 a4 a5 a6 a7 a8 a9 a10 a12 a13 a14 a15 a16 a17
        a18 a20 a21 a22) = .ok p := h
  cases hp
  exact ⟨h3, h21⟩

theorem fixFooter_lookup_ne (config : Assoc) (lang : Str) (X : Assoc) (k : Str)
    (hk : k ≠ S "footer_text") :
    dlookup (fixFooter config lang X) k = dlookup X k := by
  unfold fixFooter
  cases hfo : dgetD config (S "footer") (YVal.m []) with
  | m d => exact dlookup_dset_ne X _ k _ hk
  | s v => rfl
  | l xs => rfl

theorem ctxList_oiseaux_lien (config : Assoc) (lang : Str) (p : Parts) :
    dlookup (ctxList config lang p) (S "oiseaux_lien")
      = some (YVal.s p.oiseaux_lien) := rfl

theorem ctxList_titre (config : Assoc) (lang : Str) (p : Parts) :
    dlookup (ctxList config lang p) (S "titre") = some p.titre := rfl

/-- C1 counterexample: on a gallery URL containing `_fr` twice,
`build_context` (i.e. Python `str.replace`) rewrites both occurrences, not
only the first one as the claim states. -/
theorem oiseaux_lien_counterexample :
    (build_context
        [(S "liens", YVal.m [(S "galerie_oiseaux", YVal.s (S "gal_fr/page_fr.html"))])]
        (S "en")).map (fun c => dlookup c (S "oiseaux_lien"))
      = .ok (some (YVal.s (S "gal_en/page_en.html")))
    ∧ specReplaceFirst (S "_fr") (S "_en") (S "gal_fr/page_fr.html")
      = S "gal_en/page_fr.html"
    ∧ S "gal_en/page_en.html" ≠ S "gal_en/page_fr.html" := by
  exact ⟨rfl, rfl, by decide⟩

/-- C1 (amended): for every document and language, `build` sets
`oiseaux_lien` to the gallery URL taken from `liens.galerie_oiseaux` with
every occurrence of the literal substring `_fr` replaced by `_<lang>`; when
`lang` is `fr` this leaves the URL unchanged. -/
theorem oiseaux_lien_replace_all (config : Assoc) (lang : Str) (url : Str)
    (ctx : Assoc)
    (hurl : pyGet (dgetD config (S "liens") (YVal.m [])) (S "galerie_oiseaux")
        (YVal.s []) = .ok (YVal.s url))
    (hb : build_context config lang = .ok ctx) :
    dlookup ctx (S "oiseaux_lien")
      = some (YVal.s (pyReplaceAll url (S "_fr") ('_' :: lang)))
    ∧ (lang = S "fr" → dlookup ctx (S "oiseaux_lien") = some (YVal.s url)) := by
  obtain ⟨p, hp, hctx⟩ := build_ok_parts hb
  obtain ⟨-, holien⟩ := buildParts_fields hp
  have hval : p.oiseaux_lien = pyReplaceAll url (S "_fr") ('_' :: lang) := by
    unfold oiseauxLienF at holien
    rw [hurl] at holien
    simp only [Bind.bind, Except.bind, expectStr] at holien
    exact (Except.ok.inj holien).symm
  have hmain : dlookup ctx (S "oiseaux_lien")
      = some (YVal.s (pyReplaceAll url (S "_fr") ('_' :: lang))) := by
    rw [hctx, fixFooter_lookup_ne config lang _ _ (by decide),
      ctxList_oiseaux_lien, hval]
  refine ⟨hmain, fun hfr => ?_⟩
  subst hfr
  rw [hmain]
  have : ('_' :: S "fr") = S "_fr" := rfl
  rw [this, pyReplaceAll_self]

theorem oiseaux_lien_replace_all_witness :
    (build_context
        [(S "liens", YVal.m [(S "galerie_oiseaux", YVal.s (S "gal_fr/page_fr.html"))])]
        (S "fr")).map (fun c => dlookup c (S "oiseaux_lien"))
      = .ok (some (YVal.s (S "gal_fr/page_fr.html"))) := by
  have h := oiseaux_lien_replace_all
    [(S "liens", YVal.m [(S "galerie_oiseaux", YVal.s (S "gal_fr/page_fr.html"))])]
    (S "fr") (S "gal_fr/page_fr.html")
    ((build_context
        [(S "liens", YVal.m [(S "galerie_oiseaux", YVal.s (S "gal_fr/page_fr.html"))])]
        (S "fr")).toOption.getD [])
    rfl rfl
  rw [show (build_context
      [(S "liens", YVal.m [(S "galerie_oiseaux", YVal.s (S "gal_fr/page_fr.html"))])]
      (S "fr")) = .ok ((build_context
      [(S "liens", YVal.m [(S "galerie_oiseaux", YVal.s (S "gal_fr/page_fr.html"))])]
      (S "fr")).toOption.getD []) from rfl]
  simp only [Except.map]
  rw [h.2 rfl]

/-- C4: for every document with a `footer` mapping and `lang` in
`{fr, en}`, the `footer_text` entry of the built context equals the direct
language lookup with `fr` fallback (`footer[lang]`, else `footer[fr]`, else
empty string): the final overwrite assignment (source lines 262-265) is
authoritative.  The last two conjuncts exhibit a document on which the
earlier computation (lines 257-259) differs (it yields the empty string)
and is indeed overwritten. -/
theorem footer_final_assignment (config : Assoc) (lang : Str)
    (d : List (Str × YVal)) (ctx : Assoc)
    (hl : lang = S "fr" ∨ lang = S "en")
    (hf : dlookup config (S "footer") = some (YVal.m d))
    (hb : build_context config lang = .ok ctx) :
    dlookup ctx (S "footer_text")
      = some (dgetD d lang (dgetD d (S "fr") (YVal.s [])))
    ∧ footerFirstF [(S "footer", YVal.m [(S "fr", YVal.s (S "P"))])] (S "en")
      = .ok (YVal.s [])
    ∧ (build_context [(S "footer", YVal.m [(S "fr", YVal.s (S "P"))])]
        (S "en")).map (fun c => dlookup c (S "footer_text"))
      = .ok (some (YVal.s (S "P"))) := by
  obtain ⟨p, hp, hctx⟩ := build_ok_parts hb
  refine ⟨?_, rfl, rfl⟩
  rw [hctx]
  unfold fixFooter
  have hd : dgetD config (S "footer") (YVal.m []) = YVal.m d := by
    simp [dgetD, hf]
  rw [hd]
  exact dlookup_dset_self _ _ _

theorem footer_final_assignment_witness :
    dlookup ((build_context
        [(S "footer", YVal.m [(S "fr", YVal.s (S "P")), (S "en", YVal.s (S "F"))])]
        (S "en")).toOption.getD []) (S "footer_text") = some (YVal.s (S "F")) := by
  have h := footer_final_assignment
    [(S "footer", YVal.m [(S "fr", YVal.s (S "P")), (S "en", YVal.s (S "F"))])]
    (S "en") [(S "fr", YVal.s (S "P")), (S "en", YVal.s (S "F"))]
    ((build_context
        [(S "footer", YVal.m [(S "fr", YVal.s (S "P")), (S "en", YVal.s (S "F"))])]
        (S "en")).toOption.getD [])
    (Or.inr rfl) rfl rfl
  exact h.1

/-- C7: a bilingual field (a language-to-text mapping) is resolved to the
requested language's entry, falling back to the `fr` entry when the
requested language is absent, and to the empty string when the field is
entirely absent; in particular a mapping lacking an `en` entry resolves to
its `fr` value under `build(doc, "en")` (shown for the `titre` field). -/
theorem bilingual_fr_fallback :
    (∀ (obj : Assoc) (key lang : Str) (d : List (Str × YVal)),
      dlookup obj key = some (YVal.m d) →
      get_text (YVal.m obj) key lang
        = .ok (dgetD d lang (dgetD d (S "fr") (YVal.s []))))
    ∧ (∀ (obj : Assoc) (key lang : Str),
      dlookup obj key = none → get_text (YVal.m obj) key lang = .ok (YVal.s []))
    ∧ (∀ (obj : Assoc) (key : Str) (d : List (Str × YVal)),
      dlookup obj key = some (YVal.m d) → dlookup d (S "en") = none →
      get_text (YVal.m obj) key (S "en") = .ok (dgetD d (S "fr") (YVal.s [])))
    ∧ (∀ (config : Assoc) (d : List (Str × YVal)) (ctx : Assoc),
      dlookup config (S "titre") = some (YVal.m d) →
      dlookup d (S "en") = none →
      build_context config (S "en") = .ok ctx →
      dlookup ctx (S "titre") = some (dgetD d (S "fr") (YVal.s []))) := by
  have hdict : ∀ (obj : Assoc) (key lang : Str) (d : List (Str × YVal)),
      dlookup obj key = some (YVal.m d) →
      get_text (YVal.m obj) key lang
        = .ok (dgetD d lang (dgetD d (S "fr") (YVal.s []))) := by
    intro obj key lang d hd
    simp only [get_text, pyGet, dgetD, hd, Bind.bind, Except.bind, Option.getD]
    rfl
  refine ⟨hdict, ?_, ?_, ?_⟩
  · intro obj key lang hnone
    simp only [get_text, pyGet, dgetD, hnone, Bind.bind, Except.bind, Option.getD, dlookup]
    rfl
  · intro obj key d hd hen
    rw [hdict obj key (S "en") d hd]
    simp [dgetD, hen]
  · intro config d ctx hd hen hb
    obtain ⟨p, hp, hctx⟩ := build_ok_parts hb
    obtain ⟨htitre, -⟩ := buildParts_fields hp
    have hval : p.titre = dgetD d (S "fr") (YVal.s []) := by
      unfold titreF at htitre
      rw [hdict config (S "titre") (S "en") d hd] at htitre
      have := Except.ok.inj htitre
      rw [← this]
      simp [dgetD, hen]
    rw [hctx, fixFooter_lookup_ne config (S "en") _ _ (by decide),
      ctxList_titre, hval]

theorem bilingual_fr_fallback_witness :
    get_text (YVal.m [(S "titre", YVal.m [(S "fr", YVal.s (S "Bonjour"))])])
      (S "titre") (S "en") = .ok (YVal.s (S "Bonjour"))
    ∧ dlookup ((build_context [(S "titre", YVal.m [(S "fr", YVal.s (S "Bonjour"))])]
        (S "en")).toOption.getD []) (S "titre") = some (YVal.s (S "Bonjour")) := by
  constructor
  · exact bilingual_fr_fallback.2.2.1 [(S "titre", YVal.m [(S "fr", YVal.s (S "Bonjour"))])]
      (S "titre") [(S "fr", YVal.s (S "Bonjour"))] rfl rfl
  · exact bilingual_fr_fallback.2.2.2 [(S "titre", YVal.m [(S "fr", YVal.s (S "Bonjour"))])]
      [(S "fr", YVal.s (S "Bonjour"))]
      ((build_context [(S "titre", YVal.m [(S "fr", YVal.s (S "Bonjour"))])]
        (S "en")).toOption.getD []) rfl rfl rfl

/-! ### Mixed-block Markdown claims -/

theorem mixedFold (ls : List Str) :
    ∀ (res : List Str) (inl : Bool) (items : List Str),
      inl = !items.isEmpty →
      mixedFinish (ls.foldl mixedStep ⟨res, inl, items⟩)
        = res ++ mixedSpec items ls := by
  induction ls with
  | nil =>
    intro res inl items _
    cases h : items.isEmpty <;>
      simp [mixedFinish, mixedSpec, h, List.foldl_nil]
  | cons line ls' ih =>
    intro res inl items hinv
    rw [List.foldl_cons]
    by_cases hbul : isBulletLine (pyStrip line) = true
    · have hstep : mixedStep ⟨res, inl, items⟩ line
          = ⟨res, true, items ++ [stripBullet (pyStrip line)]⟩ := by
        simp [mixedStep, hbul]
      rw [hstep, ih res true (items ++ [stripBullet (pyStrip line)]) (by simp)]
      simp [mixedSpec, hbul]
    · have hflush : (if inl = true then res ++ [ulTag items] else res)
          = res ++ (if items.isEmpty then [] else [ulTag items]) := by
        rw [hinv]
        cases h : items.isEmpty <;> simp
      by_cases hemp : (pyStrip line).isEmpty = true
      · have hstep : mixedStep ⟨res, inl, items⟩ line
            = ⟨(if inl = true then res ++ [ulTag items] else res), false, []⟩ := by
          simp [mixedStep, hbul, hemp]
        rw [hstep, ih _ false [] (by simp), hflush]
        simp [mixedSpec, hbul, hemp, List.append_assoc]
      · have hstep : mixedStep ⟨res, inl, items⟩ line
            = ⟨(if inl = true then res ++ [ulTag items] else res)
                ++ [pTag (pyStrip line)], false, []⟩ := by
          simp [mixedStep, hbul, hemp]
        rw [hstep, ih _ false [] (by simp), hflush]
        simp [mixedSpec, hbul, hemp, List.append_assoc]

/-- C6: on a mixed block (some but not all lines are bullet lines) the
converter emits, in line order, paragraphs for non-bullet nonempty lines
interleaved with lists of the maximal runs of consecutive bullet lines,
flushing the pending run on every transition and at block end; in
particular `convert("intro line\n- item1\n- item2")` is a paragraph
followed by one two-item list. -/
theorem markdown_mixed_block :
    (∀ p : Str,
      (∃ l0 ∈ splitOnSub (S "\n") p, isBulletLine (pyStrip l0) = true) →
      (∃ l0 ∈ splitOnSub (S "\n") p, isBulletLine (pyStrip l0) = false) →
      renderPara p = (mixedSpec [] (splitOnSub (S "\n") p)).flatten)
    ∧ markdown_to_html (S "intro line\n- item1\n- item2")
      = S "<p>intro line</p><ul><li>item1</li><li>item2</li></ul>" := by
  constructor
  · intro p hsome hnot
    obtain ⟨lb, hlb, hlbT⟩ := hsome
    obtain ⟨ln, hln, hlnF⟩ := hnot
    have hne' : (splitOnSub (S "\n") p).filter (fun l => isBulletLine (pyStrip l)) ≠ [] := by
      intro hnil
      have := List.filter_eq_nil_iff.mp hnil lb hlb
      simp [hlbT] at this
    have hlt : ((splitOnSub (S "\n") p).filter (fun l => isBulletLine (pyStrip l))).length
        < (splitOnSub (S "\n") p).length :=
      List.length_filter_lt_length_iff_exists.mpr ⟨ln, hln, by simp [hlnF]⟩
    have hb1 : (((splitOnSub (S "\n") p).filter (fun l => isBulletLine (pyStrip l))).length
        == (splitOnSub (S "\n") p).length) = false := by
      simp only [beq_eq_false_iff_ne, ne_eq]
      exact Nat.ne_of_lt hlt
    have hb2 : ((splitOnSub (S "\n") p).filter
        (fun l => isBulletLine (pyStrip l))).isEmpty = false := by
      simp [List.isEmpty_iff, hne']
    simp only [renderPara, hb1, hb2, Bool.and_false, Bool.not_false,
      Bool.false_eq_true, if_false, if_true, mixedHtml]
    rw [mixedFold (splitOnSub (S "\n") p) [] false [] (by simp)]
    simp
  · decide

theorem markdown_mixed_block_witness :
    renderPara (S "a\n- b")
      = (mixedSpec [] (splitOnSub (S "\n") (S "a\n- b"))).flatten := by
  exact (markdown_mixed_block).1 (S "a\n- b")
    ⟨S "- b", by decide, by decide⟩ ⟨S "a", by decide, by decide⟩

/-- C9: inside a mixed block a whitespace-only line also terminates a
pending bullet run — the accumulated list is flushed and the blank line
emits no paragraph — so two bullet lines separated by a whitespace-only
line yield two separate one-item lists rather than one two-item list. -/
theorem mixed_ws_line_flushes (st : MState) (w : Str) (hw : pyStrip w = []) :
    mixedStep st w
      = ⟨(if st.inList then st.res ++ [ulTag st.items] else st.res), false, []⟩
    ∧ markdown_to_html (S "- a\n \n- b")
      = S "<ul><li>a</li></ul><ul><li>b</li></ul>"
    ∧ markdown_to_html (S "- a\n \n- b")
      ≠ S "<ul><li>a</li><li>b</li></ul>" := by
  refine ⟨?_, by decide, by decide⟩
  simp [mixedStep, hw, isBulletLine]

theorem mixed_ws_line_flushes_witness :
    mixedStep ⟨[], true, [S "a"]⟩ (S " ")
      = ⟨[ulTag [S "a"]], false, []⟩ := by
  exact (mixed_ws_line_flushes ⟨[], true, [S "a"]⟩ (S " ") rfl).1

/-! ### Loop-block rendering (C5) -/

theorem space_not_word {c : Char} (h : pyIsSpace c = true) : isWordChar c = false := by
  have hc : c = ' ' ∨ c = '\t' ∨ c = '\n' ∨ c = '\r' ∨ c = '\x0b' ∨ c = '\x0c' := by
    simp only [pyIsSpace, Bool.or_eq_true, beq_iff_eq] at h
    tauto
  rcases hc with h | h | h | h | h | h <;> subst h <;> decide

theorem word_not_space {c : Char} (h : isWordChar c = true) : pyIsSpace c = false := by
  cases hs : pyIsSpace c with
  | false => rfl
  | true => exact absurd h (by simp [space_not_word hs])

theorem word_split {w : Str} (hw : w.all isWordChar = true) {c : Char}
    (hc : isWordChar c = false) (t : Str) :
    (w ++ c :: t).takeWhile isWordChar = w
    ∧ (w ++ c :: t).dropWhile isWordChar = c :: t := by
  induction w with
  | nil => simp [List.takeWhile_cons, List.dropWhile_cons, hc]
  | cons a w' ih =>
    simp only [List.all_cons, Bool.and_eq_true] at hw
    have := ih hw.2
    simp [List.takeWhile_cons, List.dropWhile_cons, hw.1, this.1, this.2]

theorem dropSpaces_word {w : Str} (hne : w ≠ []) (hw : w.all isWordChar = true)
    (t : Str) : (w ++ t).dropWhile pyIsSpace = w ++ t := by
  match w, hne with
  | a :: w', _ =>
    simp only [List.all_cons, Bool.and_eq_true] at hw
    simp [List.dropWhile_cons, word_not_space hw.1]

theorem parseWord1_split {w : Str} (hne : w ≠ []) (hw : w.all isWordChar = true)
    {c : Char} (hc : isWordChar c = false) (t : Str) :
    parseWord1 (w ++ c :: t) = some (w, c :: t) := by
  obtain ⟨h1, h2⟩ := word_split hw hc t
  simp [parseWord1, h1, h2, List.isEmpty_iff, hne]

theorem endforAt_open {t r : Str} (h : endforAt t = some r) :
    litPre (S "\x7b%") t = true := by
  by_cases hp : litPre (S "\x7b%") t = true
  · exact hp
  · simp [endforAt, parseLit, hp, Option.bind] at h

theorem endforAt_closer (post : Str) :
    endforAt (S "\x7b% endfor %\x7d" ++ post) = some post := rfl

theorem findEndfor_canonical {body : Str} (hb : ¬ (S "\x7b%") <:+: body)
    : findEndfor (body ++ S "\x7b% endfor %\x7d")
      = some (body, []) := by
  induction body with
  | nil =>
    rw [List.nil_append]
    decide
  | cons c rest ih =>
    have hnone : endforAt (c :: rest ++ S "\x7b% endfor %\x7d") = none := by
      cases he : endforAt (c :: rest ++ S "\x7b% endfor %\x7d") with
      | none => rfl
      | some r =>
        have hpre := endforAt_open he
        have hP := (litPre_iff _ _).mp hpre
        match rest, hP with
        | [], hP =>
          obtain ⟨tl, htl⟩ := hP
          rw [show (S "\x7b%" : Str) = ['{', '%'] from rfl] at htl
          rw [show (S "\x7b% endfor %\x7d" : Str)
              = '{' :: ('%' :: ' ' :: 'e' :: 'n' :: 'd' :: 'f' :: 'o' :: 'r'
                :: ' ' :: '%' :: '}' :: ([] : Str)) from rfl] at htl
          simp only [List.nil_append, List.cons_append, List.cons.injEq] at htl
          exact absurd htl.2.1 (by decide)
        | d :: rest', hP =>
          obtain ⟨tl, htl⟩ := hP
          rw [show (S "\x7b%" : Str) = ['{', '%'] from rfl] at htl
          simp only [List.cons_append, List.cons.injEq] at htl
          exact (hb (by
            rw [← htl.1, ← htl.2.1]
            exact ⟨[], rest', rfl⟩)).elim
    rw [List.cons_append]
    simp only [findEndfor]
    rw [show (c :: (rest ++ S "\x7b% endfor %\x7d") : Str)
        = (c :: rest) ++ S "\x7b% endfor %\x7d" from rfl, hnone]
    rw [ih (fun h => hb (List.infix_cons h))]
    rfl

theorem forMatchAt_canonical (v l b : Str)
    (hv1 : v ≠ []) (hv2 : v.all isWordChar = true)
    (hl1 : l ≠ []) (hl2 : l.all isWordChar = true)
    (hb : ¬ (S "\x7b%") <:+: b) :
    forMatchAt (mkForBlock v l b) = some ((v, l, b), []) := by
  have estep1 : forMatchAt (mkForBlock v l b)
      = forMatchStage2 ((v ++ (S " in " ++ (l ++ (S " %\x7d"
          ++ (b ++ S "\x7b% endfor %\x7d"))))).dropWhile pyIsSpace) := rfl
  rw [estep1, dropSpaces_word hv1 hv2]
  rw [show (S " in " ++ (l ++ (S " %\x7d" ++ (b ++ S "\x7b% endfor %\x7d"))) : Str)
      = ' ' :: ('i' :: 'n' :: ' '
          :: (l ++ (S " %\x7d" ++ (b ++ S "\x7b% endfor %\x7d")))) from rfl]
  simp only [forMatchStage2]
  trans (forMatchStage2b v (' ' :: ('i' :: 'n' :: ' '
      :: (l ++ (S " %\x7d" ++ (b ++ S "\x7b% endfor %\x7d"))))))
  · rw [parseWord1_split hv1 hv2 (by decide)]
    rfl
  · have estep3 : forMatchStage2b v (' ' :: ('i' :: 'n' :: ' '
        :: (l ++ (S " %\x7d" ++ (b ++ S "\x7b% endfor %\x7d")))))
        = forMatchStage3 v ((l ++ (S " %\x7d"
            ++ (b ++ S "\x7b% endfor %\x7d"))).dropWhile pyIsSpace) := rfl
    rw [estep3, dropSpaces_word hl1 hl2]
    rw [show (S " %\x7d" ++ (b ++ S "\x7b% endfor %\x7d") : Str)
        = ' ' :: ('%' :: '}' :: (b ++ S "\x7b% endfor %\x7d")) from rfl]
    simp only [forMatchStage3]
    trans (forMatchStage4 v l (' ' :: ('%' :: '}' :: (b ++ S "\x7b% endfor %\x7d"))))
    · rw [parseWord1_split hl1 hl2 (by decide)]
      rfl
    · have estep4 : forMatchStage4 v l (' ' :: ('%' :: '}'
          :: (b ++ S "\x7b% endfor %\x7d")))
          = forMatchStage5 v l (b ++ S "\x7b% endfor %\x7d") := rfl
      rw [estep4]
      simp only [forMatchStage5]
      rw [findEndfor_canonical hb]

theorem scanSubE_full {α : Type} (m : Str → Option (α × Str))
    (repl : α → Except Unit Str) {t : Str} {a : α}
    (hm : m t = some (a, [])) (hne : t ≠ []) (fuel : Nat) :
    scanSubE m repl (fuel + 1) t = repl a := by
  match t, hne with
  | c :: rest, _ =>
    have hnil : scanSubE m repl fuel [] = .ok [] := by
      cases fuel <;> rfl
    simp only [scanSubE, hm, List.length_nil, Nat.succ_pos, if_pos, hnil]
    cases hre : repl a with
    | error e => simp [Bind.bind, Except.bind, hre]
    | ok r => simp [Bind.bind, Except.bind, hre, Pure.pure, Except.pure]

theorem renderAllItems_dicts (v b : Str) :
    ∀ ds : List (List (Str × YVal)),
      renderAllItems v b (ds.map YVal.m) = .ok (ds.map (renderItem v b)) := by
  intro ds
  induction ds with
  | nil => rfl
  | cons d ds' ih =>
    simp only [List.map_cons, renderAllItems, pyItems, Bind.bind, Except.bind, ih]
    rfl

theorem replace_for_falsy (ctx : Assoc) (v l b : Str)
    (hA : dlookup ctx l = none ∨ ∃ w, dlookup ctx l = some w ∧ pyFalsy w = true) :
    replace_for ctx v l b = .ok [] := by
  unfold replace_for
  rcases hA with h | ⟨w, hw, hfal⟩
  · rw [show dgetD ctx l (YVal.l []) = YVal.l [] from by simp [dgetD, h]]
    rfl
  · rw [show dgetD ctx l (YVal.l []) = w from by simp [dgetD, hw]]
    simp only [hfal, if_true]
    rfl

theorem replace_for_items (ctx : Assoc) (v l b : Str)
    (ds : List (List (Str × YVal))) (hne : ds ≠ [])
    (hl : dlookup ctx l = some (YVal.l (ds.map YVal.m))) :
    replace_for ctx v l b = .ok ((ds.map (renderItem v b)).flatten) := by
  unfold replace_for
  rw [show dgetD ctx l (YVal.l []) = YVal.l (ds.map YVal.m) from by simp [dgetD, hl]]
  have hfal : pyFalsy (YVal.l (ds.map YVal.m)) = false := by
    simp [pyFalsy, List.isEmpty_iff, hne]
  simp only [hfal, Bool.false_eq_true, if_false, pyIter, renderAllItems_dicts,
    Bind.bind, Except.bind]
  rfl

theorem mkForBlock_ne_nil (v l b : Str) : mkForBlock v l b ≠ [] := by
  rw [show mkForBlock v l b = '{' :: ('%' :: ' ' :: 'f' :: 'o' :: 'r' :: ' '
      :: (v ++ (S " in " ++ (l ++ (S " %\x7d"
        ++ (b ++ S "\x7b% endfor %\x7d")))))) from rfl]
  simp

theorem applyForPass_block (ctx : Assoc) (v l b : Str)
    (hv1 : v ≠ []) (hv2 : v.all isWordChar = true)
    (hl1 : l ≠ []) (hl2 : l.all isWordChar = true)
    (hb : ¬ (S "\x7b%") <:+: b) :
    applyForPass ctx (mkForBlock v l b) = replace_for ctx v l b := by
  unfold applyForPass
  exact scanSubE_full _ _ (forMatchAt_canonical v l b hv1 hv2 hl1 hl2 hb)
    (mkForBlock_ne_nil v l b) _

/-- C5: for a loop block, if the list variable is absent from the context or
bound to a falsy value the entire block including its delimiters renders to
the empty string; otherwise, with every item a mapping, each item produces a
copy of the raw body with every `itemVar.field` placeholder replaced by the
string form of that item's field value (in the item's own field order), and
the per-item renderings are concatenated in list order with no separator. -/
theorem render_loop_block (ctx : Assoc) (v l b : Str)
    (hv1 : v ≠ []) (hv2 : v.all isWordChar = true)
    (hl1 : l ≠ []) (hl2 : l.all isWordChar = true)
    (hb : ¬ (S "\x7b%") <:+: b) :
    ((dlookup ctx l = none ∨ (∃ w, dlookup ctx l = some w ∧ pyFalsy w = true)) →
      applyForPass ctx (mkForBlock v l b) = .ok [])
    ∧ (∀ ds : List (List (Str × YVal)), ds ≠ [] →
      dlookup ctx l = some (YVal.l (ds.map YVal.m)) →
      applyForPass ctx (mkForBlock v l b)
        = .ok ((ds.map (renderItem v b)).flatten)) := by
  constructor
  · intro hA
    rw [applyForPass_block ctx v l b hv1 hv2 hl1 hl2 hb]
    exact replace_for_falsy ctx v l b hA
  · intro ds hne hl
    rw [applyForPass_block ctx v l b hv1 hv2 hl1 hl2 hb]
    exact replace_for_items ctx v l b ds hne hl

theorem render_loop_block_witness :
    applyForPass
      [(S "items", YVal.l [YVal.m [(S "t", YVal.s (S "A"))],
                           YVal.m [(S "t", YVal.s (S "B"))]])]
      (mkForBlock (S "v") (S "items") (S "[\x7b\x7b v.t \x7d\x7d]"))
      = .ok (S "[A][B]")
    ∧ applyForPass [] (mkForBlock (S "v") (S "items") (S "XX")) = .ok (S "") := by
  constructor
  · have h := (render_loop_block
      [(S "items", YVal.l [YVal.m [(S "t", YVal.s (S "A"))],
                           YVal.m [(S "t", YVal.s (S "B"))]])]
      (S "v") (S "items") (S "[\x7b\x7b v.t \x7d\x7d]")
      (by decide) (by decide) (by decide) (by decide) (by decide)).2
      [[(S "t", YVal.s (S "A"))], [(S "t", YVal.s (S "B"))]]
      (by exact List.cons_ne_nil _ _) rfl
    rw [h]
    rfl
  · have h := (render_loop_block [] (S "v") (S "items") (S "XX")
      (by decide) (by decide) (by decide) (by decide) (by decide)).1
      (Or.inl rfl)
    rw [h]
    rfl

/-! ### First-match characterisation of the id extraction (C2) -/

theorem ytTry_some_iff {p t id : Str} :
    ytTry p t = some id ↔
      ∃ rest, t = p ++ id ++ rest ∧ id.length = 11 ∧ id.all isIdChar = true := by
  constructor
  · intro h
    by_cases hp : p.isPrefixOf t = true
    · simp only [ytTry, hp, if_true] at h
      by_cases hc : (((t.drop p.length).take 11).length == 11
          && ((t.drop p.length).take 11).all isIdChar) = true
      · rw [Bool.and_eq_true] at hc
        obtain ⟨hlenB, hall⟩ := hc
        have hlen : ((t.drop p.length).take 11).length = 11 := beq_iff_eq.mp hlenB
        simp only [hlenB, hall, Bool.and_self, if_true, Option.some.injEq] at h
        subst h
        refine ⟨(t.drop p.length).drop 11, ?_, hlen, hall⟩
        rw [List.append_assoc]
        calc t = p ++ t.drop p.length := (isPrefixOf_eq_append hp).symm
          _ = p ++ ((t.drop p.length).take 11 ++ (t.drop p.length).drop 11) := by
              rw [List.take_append_drop]
      · rw [if_neg hc] at h
        exact absurd h (by simp)
    · simp [ytTry, hp] at h
  · rintro ⟨rest, ht, hlen, hall⟩
    have ht' : t = p ++ (id ++ rest) := by rw [ht, List.append_assoc]
    subst ht'
    have hp : p.isPrefixOf (p ++ (id ++ rest)) = true :=
      List.isPrefixOf_iff_prefix.mpr (List.prefix_append p _)
    have hdrop : (p ++ (id ++ rest)).drop p.length = id ++ rest :=
      List.drop_left p _
    have htake : (id ++ rest).take 11 = id := by
      rw [← hlen]
      exact List.take_left id rest
    simp [ytTry, hp, hdrop, htake, hlen, hall]

theorem ytTry_none_disjoint {p q t : Str} (hp : p <+: t)
    (h1 : ¬ p <+: q) (h2 : ¬ q <+: p) : ytTry q t = none := by
  cases h : ytTry q t with
  | none => rfl
  | some id =>
    obtain ⟨rest, htq, _, _⟩ := ytTry_some_iff.mp h
    have hq : q <+: t := by
      rw [htq, List.append_assoc]
      exact List.prefix_append q _
    rcases List.prefix_or_prefix_of_prefix hp hq with hh | hh
    · exact absurd hh h1
    · exact absurd hh h2

theorem ytMatchAt_some_iff {t id : Str} :
    ytMatchAt t = some id ↔
      ∃ p, p ∈ ytShapes
        ∧ ∃ rest, t = p ++ id ++ rest ∧ id.length = 11 ∧ id.all isIdChar = true := by
  constructor
  · intro h
    simp only [ytMatchAt, ytShapes, List.findSome?_cons, List.findSome?_nil] at h
    cases h1 : ytTry (S "youtube.com/watch?v=") t with
    | some r =>
      rw [h1] at h
      cases h
      exact ⟨_, by simp [ytShapes], ytTry_some_iff.mp h1⟩
    | none =>
      rw [h1] at h
      cases h2 : ytTry (S "youtu.be/") t with
      | some r =>
        rw [h2] at h
        cases h
        exact ⟨_, by simp [ytShapes], ytTry_some_iff.mp h2⟩
      | none =>
        rw [h2] at h
        cases h3 : ytTry (S "youtube.com/embed/") t with
        | some r =>
          rw [h3] at h
          cases h
          exact ⟨_, by simp [ytShapes], ytTry_some_iff.mp h3⟩
        | none => rw [h3] at h; exact absurd h (by simp)
  · rintro ⟨p, hmem, hdec⟩
    have hpre : p <+: t := by
      obtain ⟨rest, ht, -, -⟩ := hdec
      rw [ht, List.append_assoc]
      exact List.prefix_append p _
    have hsome : ytTry p t = some id := ytTry_some_iff.mpr hdec
    simp only [ytShapes, List.mem_cons, List.mem_singleton,
      List.not_mem_nil, or_false] at hmem
    rcases hmem with rfl | rfl | rfl
    · simp only [ytMatchAt, ytShapes, List.findSome?_cons, hsome]
    · have hn1 : ytTry (S "youtube.com/watch?v=") t = none :=
        ytTry_none_disjoint hpre (by decide) (by decide)
      simp only [ytMatchAt, ytShapes, List.findSome?_cons, hn1, hsome]
    · have hn1 : ytTry (S "youtube.com/watch?v=") t = none :=
        ytTry_none_disjoint hpre (by decide) (by decide)
      have hn2 : ytTry (S "youtu.be/") t = none :=
        ytTry_none_disjoint hpre (by decide) (by decide)
      simp only [ytMatchAt, ytShapes, List.findSome?_cons, hn1, hn2, hsome]

theorem ytShapeMatchAt_iff {s : Str} {i : Nat} {id : Str} :
    ytShapeMatchAt s i id ↔ ytMatchAt (s.drop i) = some id :=
  ytMatchAt_some_iff.symm

theorem ytSearch_first (s : Str) :
    (ytSearch s = none ∧ ∀ i, ytMatchAt (s.drop i) = none)
    ∨ (∃ i id, ytSearch s = some id ∧ ytMatchAt (s.drop i) = some id
        ∧ ∀ j, j < i → ytMatchAt (s.drop j) = none) := by
  induction s with
  | nil =>
    left
    exact ⟨rfl, fun i => by rw [List.drop_nil]; rfl⟩
  | cons c rest ih =>
    cases hm : ytMatchAt (c :: rest) with
    | some id =>
      right
      exact ⟨0, id, by simp [ytSearch, hm], by simpa using hm,
        fun j hj => absurd hj (Nat.not_lt_zero j)⟩
    | none =>
      have hys : ytSearch (c :: rest) = ytSearch rest := by
        simp [ytSearch, hm]
      rcases ih with ⟨he, hall⟩ | ⟨i, id, h1, h2, h3⟩
      · left
        refine ⟨by rw [hys, he], ?_⟩
        intro i
        match i with
        | 0 => simpa using hm
        | i' + 1 => simpa [List.drop_succ_cons] using hall i'
      · right
        refine ⟨i + 1, id, by rw [hys, h1],
          by simpa [List.drop_succ_cons] using h2, ?_⟩
        intro j hj
        match j with
        | 0 => simpa using hm
        | j' + 1 =>
          simpa [List.drop_succ_cons] using h3 j' (Nat.lt_of_succ_lt_succ hj)

/-- C2: `extract_youtube_id` returns the identifier of the first match found
anywhere in the string for one of the three URL shapes, each followed by an
11-character token of alphanumerics, underscore or hyphen; it returns the
empty string when no shape matches anywhere. -/
theorem extract_youtube_id_first_match (s : Str) :
    (extract_youtube_id s = [] ∧ ∀ i id, ¬ ytShapeMatchAt s i id)
    ∨ (∃ i, ytShapeMatchAt s i (extract_youtube_id s)
        ∧ ∀ j id, j < i → ¬ ytShapeMatchAt s j id) := by
  rcases ytSearch_first s with ⟨h1, h2⟩ | ⟨i, id, h1, h2, h3⟩
  · left
    refine ⟨by simp [extract_youtube_id, h1], ?_⟩
    intro i id h
    rw [ytShapeMatchAt_iff, h2 i] at h
    exact Option.noConfusion h
  · right
    refine ⟨i, ?_, ?_⟩
    · rw [ytShapeMatchAt_iff,
        show extract_youtube_id s = id from by simp [extract_youtube_id, h1]]
      exact h2
    · intro j id' hj h
      rw [ytShapeMatchAt_iff, h3 j hj] at h
      exact Option.noConfusion h
